import Mathlib

set_option maxHeartbeats 1000000

namespace GranolaMonday

/-!
Shallow embedding of `server.js` (Granola → Monday agent).

The server's remote interactions (the Monday.com GraphQL endpoint, the
language-model completion endpoint, and the pipeline's localhost self-call)
are modelled as oracle values supplied to each handler; every handler
additionally returns the ordered list of remote calls it issued, so that
"no remote call is performed" properties are statable.
-/

/-- JSON values, as produced by the host `JSON.parse`.  Numeric literals are
kept as their raw source text; the claims under study never compare two
distinct spellings of one number. -/
inductive Json where
  | null
  | bool (b : Bool)
  | num (raw : String)
  | str (s : String)
  | arr (elems : List Json)
  | obj (fields : List (String × Json))

/-- Whitespace accepted between JSON tokens (RFC 8259). -/
def isJsonWs (c : Char) : Bool := c = ' ' || c = '\t' || c = '\n' || c = '\r'

def skipWs (l : List Char) : List Char := l.dropWhile isJsonWs

def hexVal (c : Char) : Option Nat :=
  if '0' ≤ c ∧ c ≤ '9' then some (c.toNat - '0'.toNat)
  else if 'a' ≤ c ∧ c ≤ 'f' then some (c.toNat - 'a'.toNat + 10)
  else if 'A' ≤ c ∧ c ≤ 'F' then some (c.toNat - 'A'.toNat + 10)
  else none

def hex4 (a b c d : Char) : Option Nat := do
  let x0 ← hexVal a
  let x1 ← hexVal b
  let x2 ← hexVal c
  let x3 ← hexVal d
  pure (((x0 * 16 + x1) * 16 + x2) * 16 + x3)

/-- Characters of a JSON string literal after the opening quote, following the
RFC 8259 grammar (escapes decoded, unescaped control characters rejected).
Returns the decoded characters and the input remaining after the closing
quote.  Code points outside Lean's scalar range (lone surrogates) collapse to
`Char.ofNat`'s default — irrelevant to the claims checked here. -/
def parseStrChars : List Char → Option (List Char × List Char)
  | [] => none
  | '"' :: rest => some ([], rest)
  | '\\' :: esc =>
    match esc with
    | '"' :: rest => (parseStrChars rest).map (fun p => ('"' :: p.1, p.2))
    | '\\' :: rest => (parseStrChars rest).map (fun p => ('\\' :: p.1, p.2))
    | '/' :: rest => (parseStrChars rest).map (fun p => ('/' :: p.1, p.2))
    | 'b' :: rest => (parseStrChars rest).map (fun p => (Char.ofNat 8 :: p.1, p.2))
    | 'f' :: rest => (parseStrChars rest).map (fun p => (Char.ofNat 12 :: p.1, p.2))
    | 'n' :: rest => (parseStrChars rest).map (fun p => ('\n' :: p.1, p.2))
    | 'r' :: rest => (parseStrChars rest).map (fun p => ('\r' :: p.1, p.2))
    | 't' :: rest => (parseStrChars rest).map (fun p => ('\t' :: p.1, p.2))
    | 'u' :: a :: b :: c :: d :: rest =>
      match hex4 a b c d with
      | some n => (parseStrChars rest).map (fun p => (Char.ofNat n :: p.1, p.2))
      | none => none
    | _ => none
  | c :: rest =>
    if c.toNat < 32 then none
    else (parseStrChars rest).map (fun p => (c :: p.1, p.2))

/-- Exponent part `([eE][+-]?[0-9]+)?` of a JSON number. -/
def parseExpPart (acc : List Char) (l : List Char) : Option (List Char × List Char) :=
  match l with
  | 'e' :: r =>
    let (sign, r1) := match r with
      | '+' :: r' => (['+'], r')
      | '-' :: r' => (['-'], r')
      | _ => (([] : List Char), r)
    match r1.span Char.isDigit with
    | ([], _) => none
    | (ds, r2) => some (acc ++ 'e' :: sign ++ ds, r2)
  | 'E' :: r =>
    let (sign, r1) := match r with
      | '+' :: r' => (['+'], r')
      | '-' :: r' => (['-'], r')
      | _ => (([] : List Char), r)
    match r1.span Char.isDigit with
    | ([], _) => none
    | (ds, r2) => some (acc ++ 'E' :: sign ++ ds, r2)
  | _ => some (acc, l)

/-- Fraction part `(\.[0-9]+)?` of a JSON number, then the exponent part. -/
def parseFracPart (acc : List Char) (l : List Char) : Option (List Char × List Char) :=
  match l with
  | '.' :: r =>
    match r.span Char.isDigit with
    | ([], _) => none
    | (ds, r2) => parseExpPart (acc ++ '.' :: ds) r2
  | _ => parseExpPart acc l

/-- A JSON number literal `-?(0|[1-9][0-9]*)(\.[0-9]+)?([eE][+-]?[0-9]+)?`,
returned as its raw text. -/
def parseNumberRaw (l : List Char) : Option (List Char × List Char) :=
  let (neg, l1) := match l with
    | '-' :: r => ((['-'] : List Char), r)
    | _ => (([] : List Char), l)
  match l1 with
  | '0' :: r => parseFracPart (neg ++ ['0']) r
  | c :: r =>
    if c.isDigit then
      let (ds, r2) := r.span Char.isDigit
      parseFracPart (neg ++ c :: ds) r2
    else none
  | [] => none

mutual

/-- Recursive-descent JSON value at the head of the input (leading whitespace
already consumed); fuel bounds the recursion depth. -/
def parseValue : Nat → List Char → Option (Json × List Char)
  | 0, _ => none
  | Nat.succ fuel, l =>
    match l with
    | 'n' :: 'u' :: 'l' :: 'l' :: rest => some (.null, rest)
    | 't' :: 'r' :: 'u' :: 'e' :: rest => some (.bool true, rest)
    | 'f' :: 'a' :: 'l' :: 's' :: 'e' :: rest => some (.bool false, rest)
    | '"' :: rest =>
      match parseStrChars rest with
      | some (cs, r) => some (.str ⟨cs⟩, r)
      | none => none
    | '[' :: rest =>
      match skipWs rest with
      | ']' :: r => some (.arr [], r)
      | l2 => parseElems fuel [] l2
    | '{' :: rest =>
      match skipWs rest with
      | '}' :: r => some (.obj [], r)
      | l2 => parseMembers fuel [] l2
    | _ =>
      match parseNumberRaw l with
      | some (ds, rest) => some (.num ⟨ds⟩, rest)
      | none => none

/-- Comma-separated array elements up to the closing bracket. -/
def parseElems : Nat → List Json → List Char → Option (Json × List Char)
  | 0, _, _ => none
  | Nat.succ fuel, acc, l =>
    match parseValue fuel l with
    | some (v, rest) =>
      match skipWs rest with
      | ',' :: r => parseElems fuel (v :: acc) (skipWs r)
      | ']' :: r => some (.arr (acc.reverse ++ [v]), r)
      | _ => none
    | none => none

/-- Comma-separated object members up to the closing brace.  Duplicate keys
are kept in order; field lookup takes the last binding, matching the host
`JSON.parse`. -/
def parseMembers : Nat → List (String × Json) → List Char → Option (Json × List Char)
  | 0, _, _ => none
  | Nat.succ fuel, acc, l =>
    match l with
    | '"' :: rest =>
      match parseStrChars rest with
      | some (kcs, r1) =>
        match skipWs r1 with
        | ':' :: r2 =>
          match parseValue fuel (skipWs r2) with
          | some (v, r3) =>
            match skipWs r3 with
            | ',' :: r4 => parseMembers fuel ((⟨kcs⟩, v) :: acc) (skipWs r4)
            | '}' :: r4 => some (.obj (acc.reverse ++ [(⟨kcs⟩, v)]), r4)
            | _ => none
          | none => none
        | _ => none
      | none => none
    | _ => none

end

/-- The host `JSON.parse`: a single JSON value surrounded by optional
whitespace, or failure. -/
def Json.parse (s : String) : Option Json :=
  match parseValue (2 * s.data.length + 2) (skipWs s.data) with
  | some (v, rest) => if skipWs rest = [] then some v else none
  | none => none

/-- Property lookup on a parsed object; the last binding wins, matching the
host `JSON.parse` for duplicate keys.  `none` is JavaScript's `undefined`. -/
def lookupLast : List (String × Json) → String → Option Json
  | [], _ => none
  | (k', v) :: rest, k =>
    match lookupLast rest k with
    | some r => some r
    | none => if k' = k then some v else none

def Json.getField : Json → String → Option Json
  | .obj fields, k => lookupLast fields k
  | _, _ => none

/-- `true` iff all mantissa digits of a number literal are `0` (the literal
denotes zero, JavaScript-falsy). -/
def numIsZero (raw : String) : Bool :=
  ((raw.data.takeWhile (fun c => !(c = 'e' || c = 'E'))).filter Char.isDigit).all (· = '0')

/-- JavaScript truthiness of a JSON value. -/
def Json.truthy : Json → Bool
  | .null => false
  | .bool b => b
  | .num raw => !numIsZero raw
  | .str s => s != ""
  | .arr _ => true
  | .obj _ => true

/-- Truthiness of a possibly-`undefined` value. -/
def jsTruthy : Option Json → Bool
  | none => false
  | some j => j.truthy

/-- JavaScript `.length` of a possibly-`undefined` value: defined for arrays
and strings, `undefined` otherwise (property access on other values yields
`undefined`, not an error). -/
def jsLength : Option Json → Option Nat
  | some (.arr es) => some es.length
  | some (.str s) => some s.data.length
  | _ => none

def hexDigit (n : Nat) : Char :=
  if n < 10 then Char.ofNat ('0'.toNat + n) else Char.ofNat ('a'.toNat + n - 10)

/-- `JSON.stringify` escaping of one string character. -/
def escapeChar (c : Char) : List Char :=
  if c = '"' then ['\\', '"']
  else if c = '\\' then ['\\', '\\']
  else if c = '\n' then ['\\', 'n']
  else if c = '\r' then ['\\', 'r']
  else if c = '\t' then ['\\', 't']
  else if c.toNat = 8 then ['\\', 'b']
  else if c.toNat = 12 then ['\\', 'f']
  else if c.toNat < 32 then
    ['\\', 'u', '0', '0', hexDigit (c.toNat / 16), hexDigit (c.toNat % 16)]
  else [c]

def renderString (s : String) : String :=
  ⟨'"' :: s.data.foldr (fun c acc => escapeChar c ++ acc) ['"']⟩

mutual

/-- The host `JSON.stringify` on parsed JSON values (no indentation). -/
def Json.render : Json → String
  | .null => "null"
  | .bool true => "true"
  | .bool false => "false"
  | .num raw => raw
  | .str s => renderString s
  | .arr es => "[" ++ renderElems es ++ "]"
  | .obj fs => "\x7b" ++ renderFields fs ++ "\x7d"

def renderElems : List Json → String
  | [] => ""
  | [e] => e.render
  | e :: rest => e.render ++ "," ++ renderElems rest

def renderFields : List (String × Json) → String
  | [] => ""
  | [(k, v)] => renderString k ++ ":" ++ v.render
  | (k, v) :: rest => renderString k ++ ":" ++ v.render ++ "," ++ renderFields rest

end

/-! ### JavaScript string helpers -/

/-- JavaScript whitespace as used by `String.prototype.trim` and `\s`:
the ASCII white space characters plus NBSP and the BOM.  (The remaining
Unicode space-class characters are not modelled; no claim depends on them.) -/
def isJsWs (c : Char) : Bool :=
  c = ' ' || c = '\t' || c = '\n' || c = '\r' || c.toNat = 11 || c.toNat = 12 ||
    c.toNat = 0xa0 || c.toNat = 0xfeff

def jsTrimL (l : List Char) : List Char :=
  ((l.dropWhile isJsWs).reverse.dropWhile isJsWs).reverse

/-- JavaScript `String.prototype.trim`. -/
def jsTrimS (s : String) : String := ⟨jsTrimL s.data⟩

/-- Truthiness of a possibly-`undefined`/`null` string value: only a present,
non-empty string is truthy. -/
def jsStrTruthy : Option String → Bool
  | none => false
  | some s => s != ""

/-- JavaScript `a || b` on string options. -/
def jsOr (a b : Option String) : Option String := if jsStrTruthy a then a else b

/-- JavaScript `a || d` with a plain-string default. -/
def jsOrDefault (a : Option String) (d : String) : String :=
  match a with
  | some s => if s != "" then s else d
  | none => d

/-! ### Code-fence stripping (`extractActionItems`, server.js lines 176-183)

The source tests `content.includes('```')` and then applies the regular
expression `/```(?:json)?\s*([\s\S]*?)```/`; the functions below embed that
regex: leftmost match position, the optional `json` tag taken greedily, `\s*`
taken greedily, and the lazy capture ending at the next triple backtick. -/

/-- Does the input start with a triple backtick? -/
def startsFence : List Char → Bool
  | a :: b :: c :: _ => a == '`' && b == '`' && c == '`'
  | _ => false

/-- `content.includes('```')`. -/
def containsFenceL : List Char → Bool
  | [] => false
  | l@(_ :: rest) => startsFence l || containsFenceL rest

/-- The lazy capture `([\s\S]*?)` followed by a closing triple backtick:
the shortest prefix after which a triple backtick starts, if any. -/
def takeUntilFence : List Char → Option (List Char)
  | [] => none
  | l@(c :: rest) => if startsFence l then some [] else (takeUntilFence rest).map (c :: ·)

/-- The fence regex anchored at the current position.  After the opening
triple backtick, an optional literal `json` tag and greedy `\s*` cannot lose a
match (neither can overlap a backtick run), so no backtracking is needed. -/
def matchFenceAt : List Char → Option (List Char)
  | '`' :: '`' :: '`' :: rest =>
    let rest1 := if rest.take 4 = ['j', 's', 'o', 'n'] then rest.drop 4 else rest
    takeUntilFence (rest1.dropWhile isJsWs)
  | _ => none

/-- Leftmost regex match: try each start position left to right. -/
def fenceSearchL : List Char → Option (List Char)
  | [] => none
  | l@(_ :: rest) =>
    match matchFenceAt l with
    | some cap => some cap
    | none => fenceSearchL rest

/-- server.js lines 177-182: the string handed to `JSON.parse` (before the
final `trim`): the regex capture when the content contains a triple backtick
and the regex matches, the full content otherwise. -/
def stripFenceCandidate (content : String) : String :=
  if containsFenceL content.data then
    match fenceSearchL content.data with
    | some inner => ⟨inner⟩
    | none => content
  else content

/-- server.js line 183: `JSON.parse(jsonStr.trim())`, as an `Option`. -/
def parseModelOutput (content : String) : Option Json :=
  Json.parse (jsTrimS (stripFenceCandidate content))

/-! ### Remote API client (`mondayRequest`, server.js lines 22-38)

The transport (the `fetch` to `https://api.monday.com/v2` followed by
`response.json()`) is modelled as its outcome: either a thrown error message
or the parsed JSON body.  `mondayRequest` consumes exactly one such outcome —
the single call is made once, with no retry. -/

def mondayRequest (transport : Except String Json) : Except String Json :=
  match transport with
  | .error e => .error e
  | .ok data =>
    if jsTruthy (data.getField "errors") then
      match data.getField "errors" with
      | some errs => .error ("Monday.com API Error: " ++ errs.render)
      | none => .ok data
    else .ok data

/-! ### Data model for the task-creation stage -/

/-- A Monday.com group as returned by `getBoards`. -/
structure Group where
  id : String
  title : String

/-- A Monday.com column as returned by `getBoards`. -/
structure Column where
  id : String
  title : String
  type : String

/-- A Monday.com board as returned by `getBoards`. -/
structure Board where
  id : String
  name : String
  groups : List Group
  columns : List Column

/-- An extracted action item as consumed by `POST /api/create-tasks`.
`task_title` is required by the extraction schema; the other fields may be
absent or `null` (both modelled as `none`). -/
structure ActionItem where
  task_title : String
  description : Option String := none
  assignee : Option String := none
  deadline : Option String := none
  priority : Option String := none
  project_context : Option String := none

/-- The result of the host's `new Date(string)` when it parses: a calendar
date plus a time of day (milliseconds).  Which strings parse is host-defined,
so the parse function itself is a parameter of the embedding. -/
structure CalendarDate where
  year : Nat
  month : Nat
  day : Nat

structure JsTimestamp where
  date : CalendarDate
  msOfDay : Nat := 0

def pad2 (n : Nat) : String := if n < 10 then "0" ++ toString n else toString n

def pad4 (n : Nat) : String :=
  if n < 10 then "000" ++ toString n
  else if n < 100 then "00" ++ toString n
  else if n < 1000 then "0" ++ toString n
  else toString n

/-- `date.toISOString().split('T')[0]`: the calendar-date half of the ISO
string; the time of day is discarded. -/
def isoDatePart (ts : JsTimestamp) : String :=
  pad4 ts.date.year ++ "-" ++ pad2 ts.date.month ++ "-" ++ pad2 ts.date.day

/-- `create_item` mutation result (`result.data.create_item`). -/
structure CreatedItem where
  id : String
  name : String

/-- A success record pushed onto `results` (server.js lines 322-326). -/
structure SuccessRec where
  item : CreatedItem
  original : ActionItem

/-- A failure record pushed onto `errors` (server.js lines 328-332). -/
structure ErrorRec where
  error : String
  original : ActionItem

/-- Remote calls a handler can issue, in order of issue.  `getBoards` and the
two mutations go to the Monday.com endpoint, `llm` to the language-model
endpoint, and `fetchCreateTasks` is the pipeline's localhost POST to its own
`/api/create-tasks` route. -/
inductive Ev where
  | getBoards
  | createItem (boardId groupId itemName : String) (columnValues : List (String × String))
  | addUpdate (itemId body : String)
  | llm (prompt : String)
  | fetchCreateTasks

/-- Remote outcomes consumed by one `POST /api/create-tasks` request:
the board-list fetch, and — indexed by the item's position in the loop — the
`create_item` mutation outcome and the `create_update` mutation outcome.
`parseDate` is the host's `new Date(string)` (`none` = invalid date). -/
structure CTEnv where
  boards : Except String (List Board)
  create : Nat → Except String CreatedItem
  update : Nat → Except String Unit
  parseDate : String → Option JsTimestamp

/-- The request body of `POST /api/create-tasks`.  `actionItems = none`
models a missing or non-array `actionItems` field. -/
structure CTReq where
  actionItems : Option (List ActionItem) := none
  boardId : Option String := none
  groupId : Option String := none
  meetingTitle : Option String := none

/-- The response of `POST /api/create-tasks`: an error status with a
`success:false` body, or the 200 `success:true` aggregate. -/
inductive CTResp where
  | fail (status : Nat) (error : String)
  | ok (created failed : Nat) (results : List SuccessRec) (errors : List ErrorRec)
      (boardId boardName groupId : String)

/-- Column-value map for one item (server.js lines 286-298): the date column,
when present and the item's deadline is truthy and parses, maps to the ISO
calendar date (the `{ date: ... }` wrapper is elided). -/
def buildColumnValues (dateColumn : Option Column)
    (parseDate : String → Option JsTimestamp) (item : ActionItem) :
    List (String × String) :=
  match dateColumn, item.deadline with
  | some col, some d =>
    if d != "" then
      match parseDate d with
      | some ts => [(col.id, isoDatePart ts)]
      | none => []
    else []
  | _, _ => []

/-- The context note attached to a created item (server.js lines 309-318),
built exactly as the template literal does. -/
def contextNote (meetingTitle : Option String) (item : ActionItem) : String :=
  "📝 **From Meeting: " ++ jsOrDefault meetingTitle "Untitled" ++ "**\n\n" ++
    jsOrDefault item.description "" ++ "\n\n**Priority:** " ++
    jsOrDefault item.priority "Medium" ++ "\n" ++
    (if jsStrTruthy item.assignee then
      "**Assigned to:** " ++ jsOrDefault item.assignee "" else "") ++ "\n" ++
    (if jsStrTruthy item.deadline then
      "**Deadline:** " ++ jsOrDefault item.deadline "" else "") ++ "\n" ++
    (if jsStrTruthy item.project_context then
      "**Project:** " ++ jsOrDefault item.project_context "" else "") ++
    "\n\n*Auto-created by Granola → Monday Agent*"

/-- The loop body (server.js lines 284-333) for the item at position `i`:
build column values, create the item, attach the context note; any caught
error yields a failure record with the original item.  Also returns the
remote calls issued for this item. -/
def processItem (env : CTEnv) (boardId groupId : String) (dateColumn : Option Column)
    (meetingTitle : Option String) (i : Nat) (item : ActionItem) :
    (SuccessRec ⊕ ErrorRec) × List Ev :=
  let columnValues := buildColumnValues dateColumn env.parseDate item
  let createEv := Ev.createItem boardId groupId item.task_title columnValues
  match env.create i with
  | .error e => (.inr ⟨e, item⟩, [createEv])
  | .ok created =>
    let note := contextNote meetingTitle item
    match env.update i with
    | .error e => (.inr ⟨e, item⟩, [createEv, Ev.addUpdate created.id note])
    | .ok _ => (.inl ⟨created, item⟩, [createEv, Ev.addUpdate created.id note])

/-- The sequential loop over action items starting at position `i`,
collecting the `results` and `errors` arrays in order, plus the remote calls
issued. -/
def runItems (env : CTEnv) (boardId groupId : String) (dateColumn : Option Column)
    (meetingTitle : Option String) :
    Nat → List ActionItem → List SuccessRec × List ErrorRec × List Ev
  | _, [] => ([], [], [])
  | i, item :: rest =>
    let (outcome, evs) := processItem env boardId groupId dateColumn meetingTitle i item
    let (rs, es, evs') := runItems env boardId groupId dateColumn meetingTitle (i + 1) rest
    match outcome with
    | .inl s => (s :: rs, es, evs ++ evs')
    | .inr e => (rs, e :: es, evs ++ evs')

/-- `POST /api/create-tasks` (server.js lines 236-349).  `defaultBoardId` is
`process.env.MONDAY_DEFAULT_BOARD_ID`. -/
def createTasks (env : CTEnv) (defaultBoardId : Option String) (req : CTReq) :
    CTResp × List Ev :=
  match req.actionItems with
  | none => (.fail 400 "No action items provided", [])
  | some items =>
    if items.isEmpty then (.fail 400 "No action items provided", [])
    else
      match jsOr req.boardId defaultBoardId with
      | none => (.fail 400 "No board ID specified and no default configured", [])
      | some targetBoardId =>
        if targetBoardId == "" then
          (.fail 400 "No board ID specified and no default configured", [])
        else
          match env.boards with
          | .error e => (.fail 500 e, [Ev.getBoards])
          | .ok boards =>
            match boards.find? (fun b => b.id == targetBoardId) with
            | none => (.fail 404 ("Board " ++ targetBoardId ++ " not found"), [Ev.getBoards])
            | some board =>
              match jsOr req.groupId ((board.groups.head?).map Group.id) with
              | none => (.fail 400 "No group available in the board", [Ev.getBoards])
              | some targetGroupId =>
                if targetGroupId == "" then
                  (.fail 400 "No group available in the board", [Ev.getBoards])
                else
                  let dateColumn := board.columns.find? (fun c => c.type == "date")
                  let (results, errors, evs) :=
                    runItems env targetBoardId targetGroupId dateColumn req.meetingTitle 0 items
                  (.ok results.length errors.length results errors
                      board.id board.name targetGroupId,
                    Ev.getBoards :: evs)

/-! ### Extraction stage (server.js lines 119-184) -/

/-- The fixed instruction block `EXTRACTION_PROMPT` (server.js lines 119-153).
Braces of the embedded JSON example are written as their escapes. -/
def EXTRACTION_PROMPT : String :=
  "You are an expert meeting analyst. Extract ALL action items from the meeting notes.\n\n" ++
  "## What to Extract:\n" ++
  "- Explicit assignments: \"John will...\", \"Sarah to follow up on...\"\n" ++
  "- Implied tasks: \"We need to...\", \"Someone should...\"\n" ++
  "- Decisions requiring action\n" ++
  "- Follow-up items and deadlines\n\n" ++
  "## For Each Action Item Extract:\n" ++
  "1. task_title: Clear, actionable title (verb + object format)\n" ++
  "2. description: Full context from the meeting (2-3 sentences max)\n" ++
  "3. assignee: Name of person responsible (null if unspecified)\n" ++
  "4. deadline: ISO date if mentioned, or relative term (\"end of week\")\n" ++
  "5. priority: \"high\", \"medium\", or \"low\" based on urgency language\n" ++
  "6. project_context: Project/initiative name if mentioned\n\n" ++
  "## Priority Rules:\n" ++
  "- HIGH: \"urgent\", \"ASAP\", \"blocking\", \"critical\", deadline within 3 days\n" ++
  "- MEDIUM: Has deadline, mentioned multiple times, tied to deliverable\n" ++
  "- LOW: \"when you get a chance\", \"nice to have\", no deadline\n\n" ++
  "## Output Format (JSON only, no markdown):\n" ++
  "\x7b\n" ++
  "  \"meeting_summary\": \"One sentence summary\",\n" ++
  "  \"action_items\": [\n" ++
  "    \x7b\n" ++
  "      \"task_title\": \"Schedule Q1 planning session\",\n" ++
  "      \"description\": \"Need to book a 2-hour block for leadership team\",\n" ++
  "      \"assignee\": \"Sarah\",\n" ++
  "      \"deadline\": \"2025-01-20\",\n" ++
  "      \"priority\": \"high\",\n" ++
  "      \"project_context\": \"Q1 Planning\"\n" ++
  "    \x7d\n" ++
  "  ]\n" ++
  "\x7d"

/-- The single user message sent to the model (server.js lines 163-169);
`today` is `new Date().toISOString().split('T')[0]`. -/
def buildPrompt (meetingNotes : String) (meetingTitle : Option String) (today : String) :
    String :=
  EXTRACTION_PROMPT ++ "\n\nMeeting Title: " ++ jsOrDefault meetingTitle "Untitled Meeting" ++
    "\nMeeting Date: " ++ today ++ "\n\nMeeting Notes:\n" ++ meetingNotes

/-- `extractActionItems` (server.js lines 156-184).  `llm` is the outcome of
the `anthropic.messages.create` call, as the text of the first returned
content segment or the thrown error's message.  The parse-failure message is
host-defined (a `SyntaxError` text); a fixed marker stands for it. -/
def extractActionItems (llm : Except String String) (meetingNotes : String)
    (meetingTitle : Option String) (today : String) : Except String Json × List Ev :=
  let prompt := buildPrompt meetingNotes meetingTitle today
  match llm with
  | .error e => (.error e, [Ev.llm prompt])
  | .ok content =>
    match parseModelOutput content with
    | some j => (.ok j, [Ev.llm prompt])
    | none => (.error "Unexpected token in JSON", [Ev.llm prompt])

/-! ### HTTP route handlers for extraction and the pipeline -/

/-- The validation `!meetingNotes || meetingNotes.trim().length < 50`
(server.js lines 220 and 356); `true` means the request is rejected
with status 400. -/
def notesRejected (meetingNotes : Option String) : Bool :=
  match meetingNotes with
  | none => true
  | some s => s == "" || decide ((jsTrimS s).data.length < 50)

/-- The response of `POST /api/extract`: 400 on validation failure, 500 on a
caught error, otherwise 200 with the parsed extraction spread into the body. -/
inductive ExtractResp where
  | badRequest (error : String)
  | serverError (error : String)
  | ok (result : Json)

/-- `POST /api/extract` (server.js lines 216-233). -/
def extractEndpoint (llm : Except String String) (today : String)
    (meetingNotes meetingTitle : Option String) : ExtractResp × List Ev :=
  if notesRejected meetingNotes then
    (.badRequest "Meeting notes must be at least 50 characters", [])
  else
    match meetingNotes with
    | none => (.badRequest "Meeting notes must be at least 50 characters", [])
    | some notes =>
      match extractActionItems llm notes meetingTitle today with
      | (.ok j, evs) => (.ok j, evs)
      | (.error e, evs) => (.serverError e, evs)

/-- The request body of `POST /api/process-meeting`; `autoCreate` defaults to
`false` when absent. -/
structure PMReq where
  meetingNotes : Option String := none
  meetingTitle : Option String := none
  boardId : Option String := none
  groupId : Option String := none
  autoCreate : Bool := false

/-- The display of `x.length` inside a template literal: the number, or the
text `undefined` when the property is absent. -/
def lengthDisplay : Option Nat → String
  | some k => toString k
  | none => "undefined"

/-- The response of `POST /api/process-meeting`.  The three 200 bodies
(lines 367-372, 377-382, 399-404) share the `ok` shape: `message` is present
in the first two and absent in the auto-create one; `creationResult` is
present only in the auto-create one. -/
inductive PMResp where
  | badRequest (error : String)
  | serverError (error : String)
  | ok (meetingSummary : Option Json) (actionItems : Option Json)
      (message : Option String) (creationResult : Option Json)

/-- `POST /api/process-meeting` (server.js lines 352-409).  `createTasksFetch`
is the outcome of the localhost `fetch` to `/api/create-tasks` followed by
`.json()` (a thrown error or the parsed body). -/
def processMeeting (llm : Except String String) (createTasksFetch : Except String Json)
    (today : String) (req : PMReq) : PMResp × List Ev :=
  if notesRejected req.meetingNotes then
    (.badRequest "Meeting notes must be at least 50 characters", [])
  else
    match req.meetingNotes with
    | none => (.badRequest "Meeting notes must be at least 50 characters", [])
    | some notes =>
      match extractActionItems llm notes req.meetingTitle today with
      | (.error e, evs) => (.serverError e, evs)
      | (.ok extraction, evs) =>
        let ai := extraction.getField "action_items"
        if !jsTruthy ai || jsLength ai == some 0 then
          (.ok (extraction.getField "meeting_summary") (some (.arr []))
            (some "No action items found in the meeting notes") none, evs)
        else if !req.autoCreate then
          (.ok (extraction.getField "meeting_summary") ai
            (some ("Found " ++ lengthDisplay (jsLength ai) ++
              " action items. Review and confirm to create tasks.")) none, evs)
        else
          match createTasksFetch with
          | .error e => (.serverError e, evs ++ [Ev.fetchCreateTasks])
          | .ok cr =>
            (.ok (extraction.getField "meeting_summary") ai none (some cr),
              evs ++ [Ev.fetchCreateTasks])

/-- Is this remote call part of task creation (a `create_item` mutation, a
`create_update` note attach, or the pipeline's POST to `/api/create-tasks`)? -/
def Ev.isTaskCreation : Ev → Bool
  | .createItem _ _ _ _ => true
  | .addUpdate _ _ => true
  | .fetchCreateTasks => true
  | _ => false

/-- Is this response a 400 validation failure? -/
def CTResp.isFail400 : CTResp → Bool
  | .fail 400 _ => true
  | _ => false

/-- Does this JSON object have a field of the given name?  (The notion of
"field present" used by the specification's error contract.) -/
def Json.hasField (j : Json) (k : String) : Bool :=
  (j.getField k).isSome

/-! ## Theorems -/

/-- C9 (counterexample): the claim says a `RemoteError` is signaled exactly
when the transport fails **or the parsed body's `errors` field is present**.
The code tests JavaScript truthiness, not presence: on the body
`{"errors": null}` the `errors` field is present, yet `mondayRequest`
returns the body as a success and signals no error. -/
theorem mondayRequest_presence_counterexample :
    (Json.obj [("errors", Json.null)]).hasField "errors" = true ∧
    mondayRequest (.ok (Json.obj [("errors", Json.null)])) =
      .ok (Json.obj [("errors", Json.null)]) := by
  exact ⟨rfl, rfl⟩

/-- C9 (amended): a `RemoteError` is signaled exactly when the transport call
fails or the parsed response body's `errors` field is present **and truthy**;
in the error case the message embeds the serialized (`JSON.stringify`) error
payload, and in the success case the parsed response is returned unchanged.
The single transport outcome is consumed once — no retry. -/
theorem mondayRequest_contract (transport : Except String Json) :
    (∀ e, transport = .error e → mondayRequest transport = .error e) ∧
    (∀ d errs, transport = .ok d → d.getField "errors" = some errs → errs.truthy = true →
      mondayRequest transport = .error ("Monday.com API Error: " ++ errs.render)) ∧
    (∀ d, transport = .ok d → jsTruthy (d.getField "errors") = false →
      mondayRequest transport = .ok d) := by
  refine ⟨?_, ?_, ?_⟩
  · intro e he; subst he; rfl
  · intro d errs hd hf ht; subst hd
    simp [mondayRequest, jsTruthy, hf, ht]
  · intro d hd hf; subst hd
    simp [mondayRequest, hf]

theorem mondayRequest_contract_witness :
    mondayRequest (.ok (Json.obj [("errors", Json.arr [Json.str "boom"])])) =
      .error ("Monday.com API Error: " ++ (Json.arr [Json.str "boom"]).render) :=
  (mondayRequest_contract _).2.1 _ _ rfl rfl rfl

/-- C5: if `actionItems` is missing/non-array or empty, or no board id is
resolvable from the explicit parameter or the configured default (both
JavaScript-falsy), `POST /api/create-tasks` fails with a 400 validation
error and issues no remote call at all. -/
theorem createTasks_failfast (env : CTEnv) (defaultBoardId : Option String) (req : CTReq)
    (h : req.actionItems = none ∨ req.actionItems = some [] ∨
      jsStrTruthy (jsOr req.boardId defaultBoardId) = false) :
    (createTasks env defaultBoardId req).1.isFail400 = true ∧
    (createTasks env defaultBoardId req).2 = [] := by
  rcases h with h | h | h
  · simp [createTasks, h, CTResp.isFail400]
  · simp [createTasks, h, CTResp.isFail400]
  · cases hai : req.actionItems with
    | none => simp [createTasks, hai, CTResp.isFail400]
    | some items =>
      cases items with
      | nil => simp [createTasks, hai, CTResp.isFail400]
      | cons a l =>
        cases hor : jsOr req.boardId defaultBoardId with
        | none => simp [createTasks, hai, hor, CTResp.isFail400]
        | some s =>
          rw [hor] at h
          have hs : s = "" := by simpa [jsStrTruthy] using h
          subst hs
          simp [createTasks, hai, hor, CTResp.isFail400]

theorem createTasks_failfast_witness :
    (createTasks
      { boards := .error "unused", create := fun _ => .error "unused",
        update := fun _ => .error "unused", parseDate := fun _ => none }
      none { actionItems := some [] }).1.isFail400 = true ∧
    (createTasks
      { boards := .error "unused", create := fun _ => .error "unused",
        update := fun _ => .error "unused", parseDate := fun _ => none }
      none { actionItems := some [] }).2 = [] :=
  createTasks_failfast _ _ _ (Or.inr (Or.inl rfl))

/-- C6: after the board-list fetch, an unmatched target board id fails with a
404 validation error and no item is created (the trace is just the board
fetch); otherwise the target group is the truthy explicit `groupId` if given,
else the board's first group, and if neither yields a truthy group id the
request fails 400 with no item created.  When a group resolves, the first
item-creation call is issued against exactly that board and group. -/
theorem createTasks_board_group_resolution (env : CTEnv) (defaultBoardId : Option String)
    (req : CTReq) (items : List ActionItem) (boards : List Board) (tb : String)
    (hai : req.actionItems = some items) (hne : items ≠ [])
    (hb : jsOr req.boardId defaultBoardId = some tb) (htb : tb ≠ "")
    (hbs : env.boards = .ok boards) :
    (boards.find? (fun b => b.id == tb) = none →
      createTasks env defaultBoardId req =
        (.fail 404 ("Board " ++ tb ++ " not found"), [Ev.getBoards])) ∧
    (∀ board, boards.find? (fun b => b.id == tb) = some board →
      jsStrTruthy (jsOr req.groupId ((board.groups.head?).map Group.id)) = false →
      createTasks env defaultBoardId req =
        (.fail 400 "No group available in the board", [Ev.getBoards])) ∧
    (∀ board g, boards.find? (fun b => b.id == tb) = some board →
      jsOr req.groupId ((board.groups.head?).map Group.id) = some g → g ≠ "" →
      ∀ a rest, items = a :: rest →
        (createTasks env defaultBoardId req).2.head? = some Ev.getBoards ∧
        (createTasks env defaultBoardId req).2.tail.head? =
          some (Ev.createItem tb g a.task_title
            (buildColumnValues (board.columns.find? (fun c => c.type == "date"))
              env.parseDate a))) := by
  cases items with
  | nil => exact absurd rfl hne
  | cons a0 rest0 =>
    refine ⟨?_, ?_, ?_⟩
    · intro hfind
      simp [createTasks, hai, hb, htb, hbs, hfind]
    · intro board hfind hg
      cases hor : jsOr req.groupId ((board.groups.head?).map Group.id) with
      | none => simp [createTasks, hai, hb, htb, hbs, hfind, hor]
      | some s =>
        rw [hor] at hg
        have hs : s = "" := by simpa [jsStrTruthy] using hg
        subst hs
        simp [createTasks, hai, hb, htb, hbs, hfind, hor]
    · intro board g hfind hg hgne a rest heq
      cases heq
      simp only [createTasks, hai, hb, htb, hbs, hfind, hg]
      simp only [List.isEmpty_cons, Bool.false_eq_true, if_false, hgne, bne_iff_ne,
        ne_eq, not_false_eq_true]
      rw [if_neg (by simp [htb]), if_neg (by simp [hgne])]
      simp only [runItems, processItem]
      cases env.create 0 with
      | error e => simp
      | ok c =>
        cases env.update 0 with
        | error e => simp
        | ok u => simp

theorem createTasks_board_group_resolution_witness :
    createTasks
      { boards := .ok [{ id := "B1", name := "Board", groups := [], columns := [] }],
        create := fun _ => .error "unused", update := fun _ => .error "unused",
        parseDate := fun _ => none }
      none { actionItems := some [{ task_title := "T" }], boardId := some "B2" } =
      (.fail 404 ("Board " ++ "B2" ++ " not found"), [Ev.getBoards]) :=
  (createTasks_board_group_resolution _ _ _ [{ task_title := "T" }]
    [{ id := "B1", name := "Board", groups := [], columns := [] }] "B2"
    rfl (by simp) (by rfl) (by simp) rfl).1 (by rfl)

/-- C3: with a date column present, an item whose truthy deadline parses
(under the host date parser) sends a column-value map binding the date column
to the ISO calendar date — `isoDatePart` reads only the calendar-date half,
so the time of day is discarded; a deadline that does not parse sends an
empty column-value map, and the item is still created successfully with no
error surfaced for that sub-step. -/
theorem deadline_column_handling (env : CTEnv) (boardId groupId : String) (col : Column)
    (meetingTitle : Option String) (i : Nat) (item : ActionItem) (d : String)
    (hd : item.deadline = some d) (hne : d ≠ "") :
    (∀ ts, env.parseDate d = some ts →
      buildColumnValues (some col) env.parseDate item = [(col.id, isoDatePart ts)] ∧
      (∀ ms, isoDatePart { date := ts.date, msOfDay := ms } = isoDatePart ts) ∧
      (processItem env boardId groupId (some col) meetingTitle i item).2.head? =
        some (Ev.createItem boardId groupId item.task_title [(col.id, isoDatePart ts)])) ∧
    (env.parseDate d = none →
      buildColumnValues (some col) env.parseDate item = [] ∧
      ∀ c, env.create i = .ok c → env.update i = .ok () →
        processItem env boardId groupId (some col) meetingTitle i item =
          (.inl ⟨c, item⟩, [Ev.createItem boardId groupId item.task_title [],
            Ev.addUpdate c.id (contextNote meetingTitle item)])) := by
  constructor
  · intro ts hts
    have hbcv : buildColumnValues (some col) env.parseDate item = [(col.id, isoDatePart ts)] := by
      simp [buildColumnValues, hd, hne, hts]
    refine ⟨hbcv, fun ms => rfl, ?_⟩
    simp only [processItem, hbcv]
    cases env.create i with
    | error e => simp
    | ok c =>
      cases env.update i with
      | error e => simp
      | ok u => simp
  · intro hts
    have hbcv : buildColumnValues (some col) env.parseDate item = [] := by
      simp [buildColumnValues, hd, hne, hts]
    refine ⟨hbcv, ?_⟩
    intro c hc hu
    simp [processItem, hbcv, hc, hu]

theorem deadline_column_handling_witness :
    buildColumnValues (some { id := "d1", title := "Due", type := "date" })
      (fun s => if s = "2025-01-20" then
        some { date := { year := 2025, month := 1, day := 20 }, msOfDay := 0 } else none)
      { task_title := "T", deadline := some "2025-01-20" } = [("d1", "2025-01-20")] ∧
    buildColumnValues (some { id := "d1", title := "Due", type := "date" })
      (fun s => if s = "2025-01-20" then
        some { date := { year := 2025, month := 1, day := 20 }, msOfDay := 0 } else none)
      { task_title := "T", deadline := some "next Tuesday" } = [] := by
  constructor
  · exact ((deadline_column_handling
      { boards := .error "unused", create := fun _ => .ok ⟨"1", "T"⟩,
        update := fun _ => .ok (),
        parseDate := fun s => if s = "2025-01-20" then
          some { date := { year := 2025, month := 1, day := 20 }, msOfDay := 0 } else none }
      "B" "g1" { id := "d1", title := "Due", type := "date" } none 0
      { task_title := "T", deadline := some "2025-01-20" } "2025-01-20"
      rfl (by simp)).1 { date := { year := 2025, month := 1, day := 20 }, msOfDay := 0 }
      (by simp)).1
  · exact ((deadline_column_handling
      { boards := .error "unused", create := fun _ => .ok ⟨"1", "T"⟩,
        update := fun _ => .ok (),
        parseDate := fun s => if s = "2025-01-20" then
          some { date := { year := 2025, month := 1, day := 20 }, msOfDay := 0 } else none }
      "B" "g1" { id := "d1", title := "Due", type := "date" } none 0
      { task_title := "T", deadline := some "next Tuesday" } "next Tuesday"
      rfl (by simp)).2 (by simp)).1

/-- Loop body with both remote calls succeeding: a success record. -/
theorem processItem_ok (env : CTEnv) (bid gid : String) (dc : Option Column)
    (mt : Option String) (i : Nat) (item : ActionItem) (c : CreatedItem)
    (hc : env.create i = .ok c) (hu : env.update i = .ok ()) :
    processItem env bid gid dc mt i item =
      (.inl ⟨c, item⟩,
        [Ev.createItem bid gid item.task_title (buildColumnValues dc env.parseDate item),
          Ev.addUpdate c.id (contextNote mt item)]) := by
  simp [processItem, hc, hu]

/-- Loop body with either remote call failing: a failure record carrying the
caught message and the original item. -/
theorem processItem_fail (env : CTEnv) (bid gid : String) (dc : Option Column)
    (mt : Option String) (i : Nat) (item : ActionItem) (m : String)
    (hfail : env.create i = .error m ∨
      ∃ ci, env.create i = .ok ci ∧ env.update i = .error m) :
    (processItem env bid gid dc mt i item).1 = .inr ⟨m, item⟩ := by
  rcases hfail with h | ⟨ci, hc, hu⟩
  · simp [processItem, h]
  · simp [processItem, hc, hu]

/-- If every item's two remote calls succeed, the loop collects no errors and
one success per item. -/
theorem runItems_all_ok (env : CTEnv) (bid gid : String) (dc : Option Column)
    (mt : Option String) :
    ∀ (items : List ActionItem) (start : Nat) (c : Nat → CreatedItem),
      (∀ k, k < items.length → env.create (start + k) = .ok (c (start + k)) ∧
        env.update (start + k) = .ok ()) →
      (runItems env bid gid dc mt start items).2.1 = [] ∧
      (runItems env bid gid dc mt start items).1.length = items.length := by
  intro items
  induction items with
  | nil => intro start c h; simp [runItems]
  | cons a rest ih =>
    intro start c h
    have h0 := h 0 (by simp)
    rw [Nat.add_zero] at h0
    have hpi := processItem_ok env bid gid dc mt start a (c start) h0.1 h0.2
    have ihr := ih (start + 1) c (fun k hk => by
      have hs := h (k + 1) (by simpa using Nat.succ_lt_succ hk)
      rwa [show start + (k + 1) = start + 1 + k by omega] at hs)
    simp [runItems, hpi, ihr.1, ihr.2]

/-- If exactly the item at position `k` fails (either its creation call or
its note-attach call) with message `m` and every other item's calls succeed,
the loop's error list is exactly the one failure record for that item and
the success list has one entry per remaining item. -/
theorem runItems_one_fail (env : CTEnv) (bid gid : String) (dc : Option Column)
    (mt : Option String) :
    ∀ (items : List ActionItem) (start k : Nat) (hk : k < items.length) (m : String)
      (c : Nat → CreatedItem),
      (∀ i, i < items.length → i ≠ k → env.create (start + i) = .ok (c (start + i)) ∧
        env.update (start + i) = .ok ()) →
      (env.create (start + k) = .error m ∨
        ∃ ci, env.create (start + k) = .ok ci ∧ env.update (start + k) = .error m) →
      (runItems env bid gid dc mt start items).2.1 = [⟨m, items.get ⟨k, hk⟩⟩] ∧
      (runItems env bid gid dc mt start items).1.length = items.length - 1 := by
  intro items
  induction items with
  | nil => intro start k hk; simp at hk
  | cons a rest ih =>
    intro start k hk m c hok hfail
    cases k with
    | zero =>
      rw [Nat.add_zero] at hfail
      have hpf := processItem_fail env bid gid dc mt start a m hfail
      rcases hpi : processItem env bid gid dc mt start a with ⟨o, evs⟩
      rw [hpi] at hpf
      have ho : o = .inr ⟨m, a⟩ := hpf
      subst ho
      have hall := runItems_all_ok env bid gid dc mt rest (start + 1) c (fun j hj => by
        have hs := hok (j + 1) (by simpa using Nat.succ_lt_succ hj) (by simp)
        rwa [show start + (j + 1) = start + 1 + j by omega] at hs)
      simp [runItems, hpi, hall.1, hall.2]
    | succ k' =>
      have h0 := hok 0 (by simp) (by simp)
      rw [Nat.add_zero] at h0
      have hpi := processItem_ok env bid gid dc mt start a (c start) h0.1 h0.2
      have hk' : k' < rest.length := by simpa using Nat.lt_of_succ_lt_succ hk
      have ihr := ih (start + 1) k' hk' m c (fun i hi hne => by
        have hs := hok (i + 1) (by simpa using Nat.succ_lt_succ hi) (by simpa using hne)
        rwa [show start + (i + 1) = start + 1 + i by omega] at hs)
        (by rwa [show start + 1 + k' = start + (k' + 1) by omega])
      have hlen : rest.length - 1 + 1 = rest.length := by omega
      simp [runItems, hpi, ihr.1, ihr.2, hlen]

/-- The loop's remote-call trace for a cons: the head item's calls followed
by the tail's calls. -/
theorem runItems_events_cons (env : CTEnv) (bid gid : String) (dc : Option Column)
    (mt : Option String) (start : Nat) (a : ActionItem) (rest : List ActionItem) :
    (runItems env bid gid dc mt start (a :: rest)).2.2 =
      (processItem env bid gid dc mt start a).2 ++
        (runItems env bid gid dc mt (start + 1) rest).2.2 := by
  rcases hpi : processItem env bid gid dc mt start a with ⟨o, evs⟩
  cases o <;> simp [runItems, hpi]

/-- Every remote call issued while processing the item at position `k`
appears in the loop's overall trace. -/
theorem processItem_events_mem (env : CTEnv) (bid gid : String) (dc : Option Column)
    (mt : Option String) :
    ∀ (items : List ActionItem) (start k : Nat) (hk : k < items.length) (e : Ev),
      e ∈ (processItem env bid gid dc mt (start + k) (items.get ⟨k, hk⟩)).2 →
      e ∈ (runItems env bid gid dc mt start items).2.2 := by
  intro items
  induction items with
  | nil => intro start k hk; simp at hk
  | cons a rest ih =>
    intro start k hk e he
    rw [runItems_events_cons]
    cases k with
    | zero =>
      rw [Nat.add_zero] at he
      exact List.mem_append.2 (Or.inl (by simpa using he))
    | succ k' =>
      refine List.mem_append.2 (Or.inr ?_)
      have hk' : k' < rest.length := by simpa using Nat.lt_of_succ_lt_succ hk
      refine ih (start + 1) k' hk' e ?_
      rw [show start + 1 + k' = start + (k' + 1) by omega]
      simpa using he

/-- C1: with preconditions and board/group resolution succeeding, if the
remote processing of exactly the item at position `k` fails (its creation
call, or its note attach after creation) with message `m` while every other
item's calls succeed, the 200 response reports `N-1` successes and exactly
one failure, whose record carries the caught message together with the
original item `k` itself; no per-item error escapes to the caller. -/
theorem createTasks_batch_isolation (env : CTEnv) (defaultBoardId : Option String)
    (req : CTReq) (items : List ActionItem) (boards : List Board) (board : Board)
    (tb g : String) (k : Nat) (m : String) (c : Nat → CreatedItem)
    (hai : req.actionItems = some items) (hk : k < items.length)
    (hb : jsOr req.boardId defaultBoardId = some tb) (htb : tb ≠ "")
    (hbs : env.boards = .ok boards)
    (hfind : boards.find? (fun b => b.id == tb) = some board)
    (hg : jsOr req.groupId ((board.groups.head?).map Group.id) = some g) (hgne : g ≠ "")
    (hok : ∀ i, i < items.length → i ≠ k → env.create i = .ok (c i) ∧ env.update i = .ok ())
    (hfail : env.create k = .error m ∨
      ∃ ci, env.create k = .ok ci ∧ env.update k = .error m) :
    ∃ results, (createTasks env defaultBoardId req).1 =
      .ok (items.length - 1) 1 results [⟨m, items.get ⟨k, hk⟩⟩] board.id board.name g ∧
      results.length = items.length - 1 := by
  have hne : items.isEmpty = false := by
    cases items with
    | nil => simp at hk
    | cons a r => rfl
  have hrun := runItems_one_fail env tb g (board.columns.find? (fun col => col.type == "date"))
    req.meetingTitle items 0 k hk m c
    (fun i hi hne' => by simpa using hok i hi hne')
    (by simpa using hfail)
  rcases hR : runItems env tb g (board.columns.find? (fun col => col.type == "date"))
    req.meetingTitle 0 items with ⟨rs, es, evs⟩
  rw [hR] at hrun
  obtain ⟨hes, hlen⟩ := hrun
  dsimp only at hes hlen
  refine ⟨rs, ?_, hlen⟩
  have htb' : (tb == "") = false := by simpa using htb
  have hgne' : (g == "") = false := by simpa using hgne
  simp only [createTasks, hai, hne, hb, htb', hbs, hfind, hg, hgne', Bool.false_eq_true,
    if_false, hR]
  simp [hes, hlen]

theorem createTasks_batch_isolation_witness :
    ∃ results, (createTasks
      { boards := .ok [{ id := "B", name := "Board",
                         groups := [{ id := "g1", title := "G" }], columns := [] }],
        create := fun i => if i = 1 then .error "invalid characters" else .ok ⟨"101", "ok"⟩,
        update := fun _ => .ok (), parseDate := fun _ => none }
      none
      { actionItems := some [{ task_title := "A" }, { task_title := "B" },
                             { task_title := "C" }], boardId := some "B" }).1 =
      .ok 2 1 results
        [({ error := "invalid characters",
            original := { task_title := "B" } } : ErrorRec)] "B" "Board" "g1" ∧
      results.length = 2 :=
  createTasks_batch_isolation _ none _
    [{ task_title := "A" }, { task_title := "B" }, { task_title := "C" }]
    [{ id := "B", name := "Board", groups := [{ id := "g1", title := "G" }], columns := [] }]
    { id := "B", name := "Board", groups := [{ id := "g1", title := "G" }], columns := [] }
    "B" "g1" 1 "invalid characters" (fun _ => ⟨"101", "ok"⟩)
    rfl (by simp) (by rfl) (by simp) rfl (by rfl) (by rfl) (by simp)
    (fun i _ hne => ⟨by simp [hne], rfl⟩) (Or.inl (by simp))

/-- C10: an item is recorded as a success only if both its `create_item`
call and its `create_update` note attach succeed; when the note attach fails
after the item was created, the item lands in the failure list with the
attach error's message — yet the trace still contains the issued
`create_item` call (and the attempted note attach), so a failure record does
not mean the remote state is unchanged for that item. -/
theorem success_requires_note_attach (env : CTEnv) (defaultBoardId : Option String)
    (req : CTReq) (items : List ActionItem) (boards : List Board) (board : Board)
    (tb g : String) (k : Nat) (m : String) (ci : CreatedItem) (c : Nat → CreatedItem)
    (hai : req.actionItems = some items) (hk : k < items.length)
    (hb : jsOr req.boardId defaultBoardId = some tb) (htb : tb ≠ "")
    (hbs : env.boards = .ok boards)
    (hfind : boards.find? (fun b => b.id == tb) = some board)
    (hg : jsOr req.groupId ((board.groups.head?).map Group.id) = some g) (hgne : g ≠ "")
    (hok : ∀ i, i < items.length → i ≠ k → env.create i = .ok (c i) ∧ env.update i = .ok ())
    (hcreate : env.create k = .ok ci) (hupd : env.update k = .error m) :
    (∀ i itm s evs,
      processItem env tb g (board.columns.find? (fun col => col.type == "date"))
        req.meetingTitle i itm = (.inl s, evs) →
      ∃ cc, env.create i = .ok cc ∧ env.update i = .ok () ∧ s = ⟨cc, itm⟩) ∧
    (∃ results, (createTasks env defaultBoardId req).1 =
      .ok (items.length - 1) 1 results [⟨m, items.get ⟨k, hk⟩⟩] board.id board.name g) ∧
    Ev.createItem tb g (items.get ⟨k, hk⟩).task_title
      (buildColumnValues (board.columns.find? (fun col => col.type == "date")) env.parseDate
        (items.get ⟨k, hk⟩)) ∈ (createTasks env defaultBoardId req).2 ∧
    Ev.addUpdate ci.id (contextNote req.meetingTitle (items.get ⟨k, hk⟩)) ∈
      (createTasks env defaultBoardId req).2 := by
  have hne : items.isEmpty = false := by
    cases items with
    | nil => simp at hk
    | cons a r => rfl
  have hrun := runItems_one_fail env tb g (board.columns.find? (fun col => col.type == "date"))
    req.meetingTitle items 0 k hk m c
    (fun i hi hne' => by simpa using hok i hi hne')
    (by
      simp only [Nat.zero_add]
      exact Or.inr ⟨ci, hcreate, hupd⟩)
  rcases hR : runItems env tb g (board.columns.find? (fun col => col.type == "date"))
    req.meetingTitle 0 items with ⟨rs, es, evs⟩
  rw [hR] at hrun
  obtain ⟨hes, hlen⟩ := hrun
  dsimp only at hes hlen
  have htb' : (tb == "") = false := by simpa using htb
  have hgne' : (g == "") = false := by simpa using hgne
  have hCT : createTasks env defaultBoardId req =
      (.ok rs.length es.length rs es board.id board.name g, Ev.getBoards :: evs) := by
    simp only [createTasks, hai, hne, hb, htb', hbs, hfind, hg, hgne', Bool.false_eq_true,
      if_false, hR]
  have hpk : processItem env tb g (board.columns.find? (fun col => col.type == "date"))
      req.meetingTitle k (items.get ⟨k, hk⟩) =
      (.inr ⟨m, items.get ⟨k, hk⟩⟩,
        [Ev.createItem tb g (items.get ⟨k, hk⟩).task_title
          (buildColumnValues (board.columns.find? (fun col => col.type == "date"))
            env.parseDate (items.get ⟨k, hk⟩)),
         Ev.addUpdate ci.id (contextNote req.meetingTitle (items.get ⟨k, hk⟩))]) := by
    simp [processItem, hcreate, hupd]
  have hmem : ∀ e ∈ (processItem env tb g
      (board.columns.find? (fun col => col.type == "date"))
      req.meetingTitle k (items.get ⟨k, hk⟩)).2, e ∈ evs := by
    intro e he
    have := processItem_events_mem env tb g
      (board.columns.find? (fun col => col.type == "date")) req.meetingTitle items 0 k hk e
      (by simpa using he)
    rwa [hR] at this
  refine ⟨?_, ⟨rs, ?_⟩, ?_, ?_⟩
  · intro i itm s evs' hpi
    cases hc : env.create i with
    | error e => simp [processItem, hc] at hpi
    | ok cc =>
      cases hu : env.update i with
      | error e => simp [processItem, hc, hu] at hpi
      | ok u =>
        refine ⟨cc, rfl, rfl, ?_⟩
        simp [processItem, hc, hu] at hpi
        exact hpi.1.symm
  · rw [hCT]
    simp [hes, hlen]
  · rw [hCT]
    refine List.mem_cons_of_mem _ (hmem _ ?_)
    rw [hpk]
    simp
  · rw [hCT]
    refine List.mem_cons_of_mem _ (hmem _ ?_)
    rw [hpk]
    simp

theorem success_requires_note_attach_witness :
    Ev.addUpdate "101" (contextNote none { task_title := "A" }) ∈
      (createTasks
        { boards := .ok [{ id := "B", name := "Board",
                           groups := [{ id := "g1", title := "G" }], columns := [] }],
          create := fun _ => .ok ⟨"101", "T"⟩, update := fun _ => .error "attach failed",
          parseDate := fun _ => none }
        none { actionItems := some [{ task_title := "A" }], boardId := some "B" }).2 :=
  (success_requires_note_attach _ none _ [{ task_title := "A" }]
    [{ id := "B", name := "Board", groups := [{ id := "g1", title := "G" }], columns := [] }]
    { id := "B", name := "Board", groups := [{ id := "g1", title := "G" }], columns := [] }
    "B" "g1" 0 "attach failed" ⟨"101", "T"⟩ (fun _ => ⟨"101", "T"⟩)
    rfl (by simp) (by rfl) (by simp) rfl (by rfl) (by rfl) (by simp)
    (fun i hi hne => (hne (by simp at hi; omega)).elim) rfl rfl).2.2.2

/-- The extraction stage always issues exactly one language-model call,
carrying the constructed prompt. -/
theorem extractActionItems_events (llm : Except String String) (notes : String)
    (title : Option String) (today : String) :
    (extractActionItems llm notes title today).2 = [Ev.llm (buildPrompt notes title today)] := by
  cases llm with
  | error e => rfl
  | ok content => cases h : parseModelOutput content <;> simp [extractActionItems, h]

/-- The code's rejection test agrees with the specification's condition:
notes are rejected exactly when absent or of trimmed length below 50. -/
theorem notesRejected_iff (notes : Option String) :
    notesRejected notes = true ↔
      (notes = none ∨ ∃ s, notes = some s ∧ (jsTrimS s).data.length < 50) := by
  cases notes with
  | none => simp [notesRejected]
  | some s =>
    simp only [notesRejected, Bool.or_eq_true, beq_iff_eq, decide_eq_true_eq,
      Option.some.injEq, reduceCtorEq, false_or]
    constructor
    · rintro (rfl | h)
      · exact ⟨"", rfl, by decide⟩
      · exact ⟨s, rfl, h⟩
    · rintro ⟨s', rfl, h⟩
      exact Or.inr h

/-- C4: a request to `/api/extract` or `/api/process-meeting` whose notes are
absent or shorter than 50 characters after trimming gets a 400 response and
causes no remote call at all; notes of trimmed length at least 50 pass the
check, the next action being the language-model call. -/
theorem min_length_validation (llm : Except String String) (ctf : Except String Json)
    (today : String) (notes title boardId groupId : Option String) (autoCreate : Bool) :
    ((notes = none ∨ ∃ s, notes = some s ∧ (jsTrimS s).data.length < 50) →
      extractEndpoint llm today notes title =
        (.badRequest "Meeting notes must be at least 50 characters", []) ∧
      processMeeting llm ctf today ⟨notes, title, boardId, groupId, autoCreate⟩ =
        (.badRequest "Meeting notes must be at least 50 characters", [])) ∧
    (∀ s, notes = some s → 50 ≤ (jsTrimS s).data.length →
      (extractEndpoint llm today notes title).2 = [Ev.llm (buildPrompt s title today)] ∧
      (processMeeting llm ctf today ⟨notes, title, boardId, groupId, autoCreate⟩).2.head? =
        some (Ev.llm (buildPrompt s title today))) := by
  constructor
  · intro h
    have hrej : notesRejected notes = true := (notesRejected_iff notes).2 h
    exact ⟨by simp [extractEndpoint, hrej], by simp [processMeeting, hrej]⟩
  · intro s hs hlen
    subst hs
    have hne : s ≠ "" := by
      intro h
      subst h
      revert hlen
      decide
    have hrej : notesRejected (some s) = false := by
      simp only [notesRejected, Bool.or_eq_false_iff]
      exact ⟨by simpa using hne,
        by simp only [decide_eq_false_iff_not]; exact Nat.not_lt.2 hlen⟩
    rcases hE : extractActionItems llm s title today with ⟨r, evs⟩
    have hevs := extractActionItems_events llm s title today
    rw [hE] at hevs
    dsimp only at hevs
    subst hevs
    constructor
    · cases r <;> simp [extractEndpoint, hrej, hE]
    · cases r with
      | error e => simp [processMeeting, hrej, hE]
      | ok extraction =>
        by_cases h1 : (!jsTruthy (extraction.getField "action_items") ||
            jsLength (extraction.getField "action_items") == some 0) = true
        · simp [processMeeting, hrej, hE, h1]
        · by_cases h2 : autoCreate
          · cases ctf <;>
              simp [processMeeting, hrej, hE, h1, h2]
          · simp [processMeeting, hrej, hE, h1, h2]

theorem min_length_validation_witness :
    extractEndpoint (.error "unused") "2025-01-20" (some "short note") none =
      (.badRequest "Meeting notes must be at least 50 characters", []) ∧
    (extractEndpoint (.error "unused") "2025-01-20"
      (some "team sync notes with plenty of detail to pass the fifty character minimum") none).2 =
      [Ev.llm (buildPrompt
        "team sync notes with plenty of detail to pass the fifty character minimum"
        none "2025-01-20")] :=
  ⟨((min_length_validation (.error "unused") (.error "unused") "2025-01-20"
      (some "short note") none none none false).1
      (Or.inr ⟨"short note", rfl, by decide⟩)).1,
   ((min_length_validation (.error "unused") (.error "unused") "2025-01-20"
      (some "team sync notes with plenty of detail to pass the fifty character minimum")
      none none none false).2
      "team sync notes with plenty of detail to pass the fifty character minimum"
      rfl (by decide)).1⟩

/-- C7: with `autoCreate` false and an extraction yielding a non-empty item
array, the pipeline returns the meeting summary and the extracted items for
review, and its remote-call trace is the single language-model call — no
`create_item`, no note attach, no POST to `/api/create-tasks`. -/
theorem autoCreate_false_checkpoint (llm : Except String String) (ctf : Except String Json)
    (today : String) (notes : String) (title boardId groupId : Option String)
    (j : Json) (l : List Json)
    (hnotes : notesRejected (some notes) = false)
    (hx : (extractActionItems llm notes title today).1 = .ok j)
    (hai : j.getField "action_items" = some (.arr l)) (hne : l ≠ []) :
    processMeeting llm ctf today ⟨some notes, title, boardId, groupId, false⟩ =
      (.ok (j.getField "meeting_summary") (some (.arr l))
        (some ("Found " ++ toString l.length ++
          " action items. Review and confirm to create tasks.")) none,
       [Ev.llm (buildPrompt notes title today)]) ∧
    ∀ e ∈ (processMeeting llm ctf today ⟨some notes, title, boardId, groupId, false⟩).2,
      e.isTaskCreation = false := by
  rcases hE : extractActionItems llm notes title today with ⟨r, evs⟩
  have hevs := extractActionItems_events llm notes title today
  rw [hE] at hevs
  dsimp only at hevs
  subst hevs
  rw [hE] at hx
  have hr : r = .ok j := hx
  subst hr
  have hlen0 : (l.length == 0) = false := by
    simp only [beq_eq_false_iff_ne, ne_eq, List.length_eq_zero]
    exact hne
  have hmain : processMeeting llm ctf today ⟨some notes, title, boardId, groupId, false⟩ =
      (.ok (j.getField "meeting_summary") (some (.arr l))
        (some ("Found " ++ toString l.length ++
          " action items. Review and confirm to create tasks.")) none,
       [Ev.llm (buildPrompt notes title today)]) := by
    simp [processMeeting, hnotes, hE, hai, jsTruthy, Json.truthy, jsLength, hlen0,
      lengthDisplay]
  refine ⟨hmain, ?_⟩
  rw [hmain]
  intro e he
  simp only [List.mem_singleton] at he
  subst he
  rfl

theorem autoCreate_false_checkpoint_witness :
    processMeeting
      (.ok "\x7b\"action_items\":[0],\"meeting_summary\":\"s\"\x7d") (.error "unused")
      "2025-01-20"
      ⟨some "team sync notes with plenty of detail to pass the fifty character minimum",
        none, none, none, false⟩ =
      (.ok (some (.str "s")) (some (.arr [.num "0"]))
        (some ("Found " ++ toString (1 : Nat) ++
          " action items. Review and confirm to create tasks.")) none,
       [Ev.llm (buildPrompt
         "team sync notes with plenty of detail to pass the fifty character minimum"
         none "2025-01-20")]) :=
  (autoCreate_false_checkpoint
    (.ok "\x7b\"action_items\":[0],\"meeting_summary\":\"s\"\x7d") (.error "unused") "2025-01-20"
    "team sync notes with plenty of detail to pass the fifty character minimum"
    none none none
    (.obj [("action_items", .arr [.num "0"]), ("meeting_summary", .str "s")]) [.num "0"]
    (by decide) rfl rfl (by simp)).1

/-- C8: when extraction succeeds but yields zero action items, the pipeline
returns a 200 result carrying the meeting summary and an empty item list,
with the fixed "no action items" message, and the task-creation stage is
skipped entirely — for any value of `autoCreate`, the trace is the single
language-model call. -/
theorem empty_extraction_short_circuit (llm : Except String String) (ctf : Except String Json)
    (today : String) (notes : String) (title boardId groupId : Option String)
    (autoCreate : Bool) (j : Json)
    (hnotes : notesRejected (some notes) = false)
    (hx : (extractActionItems llm notes title today).1 = .ok j)
    (hai : j.getField "action_items" = some (.arr [])) :
    processMeeting llm ctf today ⟨some notes, title, boardId, groupId, autoCreate⟩ =
      (.ok (j.getField "meeting_summary") (some (.arr []))
        (some "No action items found in the meeting notes") none,
       [Ev.llm (buildPrompt notes title today)]) ∧
    ∀ e ∈ (processMeeting llm ctf today ⟨some notes, title, boardId, groupId, autoCreate⟩).2,
      e.isTaskCreation = false := by
  rcases hE : extractActionItems llm notes title today with ⟨r, evs⟩
  have hevs := extractActionItems_events llm notes title today
  rw [hE] at hevs
  dsimp only at hevs
  subst hevs
  rw [hE] at hx
  have hr : r = .ok j := hx
  subst hr
  have hmain : processMeeting llm ctf today ⟨some notes, title, boardId, groupId, autoCreate⟩ =
      (.ok (j.getField "meeting_summary") (some (.arr []))
        (some "No action items found in the meeting notes") none,
       [Ev.llm (buildPrompt notes title today)]) := by
    simp [processMeeting, hnotes, hE, hai, jsTruthy, Json.truthy, jsLength]
  refine ⟨hmain, ?_⟩
  rw [hmain]
  intro e he
  simp only [List.mem_singleton] at he
  subst he
  rfl

theorem empty_extraction_short_circuit_witness :
    processMeeting
      (.ok "\x7b\"meeting_summary\":\"s\",\"action_items\":[]\x7d") (.error "unused")
      "2025-01-20"
      ⟨some "team sync notes with plenty of detail to pass the fifty character minimum",
        none, none, none, true⟩ =
      (.ok (some (.str "s")) (some (.arr []))
        (some "No action items found in the meeting notes") none,
       [Ev.llm (buildPrompt
         "team sync notes with plenty of detail to pass the fifty character minimum"
         none "2025-01-20")]) :=
  (empty_extraction_short_circuit
    (.ok "\x7b\"meeting_summary\":\"s\",\"action_items\":[]\x7d") (.error "unused") "2025-01-20"
    "team sync notes with plenty of detail to pass the fifty character minimum"
    none none none true
    (.obj [("meeting_summary", .str "s"), ("action_items", .arr [])])
    (by decide) rfl rfl).1

theorem containsFenceL_cons_eq (c : Char) (rest : List Char) :
    containsFenceL (c :: rest) = (startsFence (c :: rest) || containsFenceL rest) := rfl

/-- If the payload contains no triple backtick, the lazy capture runs up to
the closing fence appended after it: the capture is the payload plus the
newline before the closing fence. -/
theorem takeUntilFence_sentinel :
    ∀ t : List Char, containsFenceL t = false →
      takeUntilFence (t ++ '\n' :: '`' :: '`' :: '`' :: []) = some (t ++ ['\n']) := by
  intro t
  induction t with
  | nil => intro _; decide
  | cons c rest ih =>
    intro ht
    rw [containsFenceL_cons_eq] at ht
    obtain ⟨h1, h2⟩ := Bool.or_eq_false_iff.1 ht
    have hnb : (('\n' : Char) == '`') = false := by decide
    have h3 : startsFence (c :: (rest ++ '\n' :: '`' :: '`' :: '`' :: [])) = false := by
      cases rest with
      | nil => simp [startsFence, hnb]
      | cons d rest' =>
        cases rest' with
        | nil => simp [startsFence, hnb]
        | cons e rest'' => simpa [startsFence] using h1
    rw [List.cons_append]
    simp only [takeUntilFence, h3, Bool.false_eq_true, if_false, ih h2, Option.map_some]
    simp

/-- After the regex's greedy `\s*`, the capture trims to the same string as
the raw payload (whether or not the payload is pure whitespace). -/
theorem capture_after_ws :
    ∀ t : List Char, containsFenceL t = false →
      ∃ cap,
        takeUntilFence ((t ++ '\n' :: '`' :: '`' :: '`' :: []).dropWhile isJsWs) = some cap ∧
        jsTrimL cap = jsTrimL t := by
  intro t
  induction t with
  | nil => exact fun _ => ⟨[], by decide, by decide⟩
  | cons c rest ih =>
    intro ht
    rw [containsFenceL_cons_eq] at ht
    obtain ⟨h1, h2⟩ := Bool.or_eq_false_iff.1 ht
    by_cases hc : isJsWs c = true
    · obtain ⟨cap, hcap, htrim⟩ := ih h2
      refine ⟨cap, ?_, ?_⟩
      · rw [List.cons_append, List.dropWhile_cons]
        simpa [hc] using hcap
      · rw [htrim]
        simp [jsTrimL, List.dropWhile_cons, hc]
    · refine ⟨(c :: rest) ++ ['\n'], ?_, ?_⟩
      · rw [List.cons_append, List.dropWhile_cons]
        simp only [hc, Bool.false_eq_true, if_false]
        rw [← List.cons_append]
        exact takeUntilFence_sentinel (c :: rest) ht
      · have hwn : isJsWs '\n' = true := by decide
        simp [jsTrimL, List.dropWhile_cons, hc, List.reverse_append, hwn]

theorem wrapped_json_data (t : String) :
    ("```json\n" ++ t ++ "\n```").data =
      '`' :: '`' :: '`' :: 'j' :: 's' :: 'o' :: 'n' :: '\n' ::
        (t.data ++ '\n' :: '`' :: '`' :: '`' :: []) := by
  rw [String.data_append, String.data_append]
  simp

theorem wrapped_plain_data (t : String) :
    ("```\n" ++ t ++ "\n```").data =
      '`' :: '`' :: '`' :: '\n' :: (t.data ++ '\n' :: '`' :: '`' :: '`' :: []) := by
  rw [String.data_append, String.data_append]
  simp

/-- The regex match on a `json`-tagged wrapped payload without inner fences:
it matches at position zero and captures a string trimming to the payload. -/
theorem fenceSearch_wrapped_json (t : String) (ht : containsFenceL t.data = false) :
    ∃ cap, fenceSearchL (("```json\n" ++ t ++ "\n```").data) = some cap ∧
      jsTrimL cap = jsTrimL t.data := by
  obtain ⟨cap, hcap, htrim⟩ := capture_after_ws t.data ht
  refine ⟨cap, ?_, htrim⟩
  rw [wrapped_json_data]
  have hm : matchFenceAt ('`' :: '`' :: '`' :: 'j' :: 's' :: 'o' :: 'n' :: '\n' ::
      (t.data ++ '\n' :: '`' :: '`' :: '`' :: [])) = some cap := by
    simp only [matchFenceAt, List.take, List.drop, if_true]
    rw [List.dropWhile_cons_of_pos (by decide : isJsWs '\n' = true)]
    exact hcap
  simp only [fenceSearchL, hm]

/-- The regex match on an untagged wrapped payload without inner fences. -/
theorem fenceSearch_wrapped_plain (t : String) (ht : containsFenceL t.data = false) :
    ∃ cap, fenceSearchL (("```\n" ++ t ++ "\n```").data) = some cap ∧
      jsTrimL cap = jsTrimL t.data := by
  obtain ⟨cap, hcap, htrim⟩ := capture_after_ws t.data ht
  refine ⟨cap, ?_, htrim⟩
  rw [wrapped_plain_data]
  have hm : matchFenceAt ('`' :: '`' :: '`' :: '\n' ::
      (t.data ++ '\n' :: '`' :: '`' :: '`' :: [])) = some cap := by
    simp only [matchFenceAt, List.take]
    rw [if_neg (by simp)]
    rw [List.dropWhile_cons_of_pos (by decide : isJsWs '\n' = true)]
    exact hcap
  simp only [fenceSearchL, hm]

theorem parseModelOutput_wrapped_json (t : String) (ht : containsFenceL t.data = false) :
    parseModelOutput ("```json\n" ++ t ++ "\n```") = parseModelOutput t := by
  obtain ⟨cap, hsearch, htrim⟩ := fenceSearch_wrapped_json t ht
  have hcf : containsFenceL (("```json\n" ++ t ++ "\n```").data) = true := by
    rw [wrapped_json_data, containsFenceL_cons_eq]
    simp [startsFence]
  unfold parseModelOutput stripFenceCandidate
  rw [hcf, ht]
  simp only [if_true, Bool.false_eq_true, if_false, hsearch]
  show Json.parse (jsTrimS ⟨cap⟩) = Json.parse (jsTrimS t)
  have : jsTrimS ⟨cap⟩ = jsTrimS t := by
    show String.mk (jsTrimL cap) = String.mk (jsTrimL t.data)
    rw [htrim]
  rw [this]

theorem parseModelOutput_wrapped_plain (t : String) (ht : containsFenceL t.data = false) :
    parseModelOutput ("```\n" ++ t ++ "\n```") = parseModelOutput t := by
  obtain ⟨cap, hsearch, htrim⟩ := fenceSearch_wrapped_plain t ht
  have hcf : containsFenceL (("```\n" ++ t ++ "\n```").data) = true := by
    rw [wrapped_plain_data, containsFenceL_cons_eq]
    simp [startsFence]
  unfold parseModelOutput stripFenceCandidate
  rw [hcf, ht]
  simp only [if_true, Bool.false_eq_true, if_false, hsearch]
  show Json.parse (jsTrimS ⟨cap⟩) = Json.parse (jsTrimS t)
  have : jsTrimS ⟨cap⟩ = jsTrimS t := by
    show String.mk (jsTrimL cap) = String.mk (jsTrimL t.data)
    rw [htrim]
  rw [this]

/-- C2 (amended): for every payload text containing no triple backtick,
wrapping it in a markdown code fence — with or without the `json` language
tag — parses to exactly the same structured result as the bare payload, and
content without any triple-backtick delimiter is handed to the JSON parser
unchanged. -/
theorem fence_strip_equivalence (t : String) (ht : containsFenceL t.data = false) :
    parseModelOutput ("```json\n" ++ t ++ "\n```") = parseModelOutput t ∧
    parseModelOutput ("```\n" ++ t ++ "\n```") = parseModelOutput t ∧
    stripFenceCandidate t = t :=
  ⟨parseModelOutput_wrapped_json t ht, parseModelOutput_wrapped_plain t ht,
   by simp [stripFenceCandidate, ht]⟩

theorem fence_strip_equivalence_witness :
    containsFenceL ("\x7b\"a\":1\x7d").data = false ∧
    parseModelOutput ("```json\n" ++ "\x7b\"a\":1\x7d" ++ "\n```") = parseModelOutput "\x7b\"a\":1\x7d" :=
  ⟨by decide, (fence_strip_equivalence "\x7b\"a\":1\x7d" (by decide)).1⟩

/-- C2 (counterexample): the claim as stated — the equivalence for *every*
JSON payload text — fails when the payload itself contains a triple
backtick.  `{"a":"```"}` is a valid JSON payload and parses bare
(the regex needs a second fence, finds none, and the full text is parsed),
but wrapping it in a `json` fence makes the lazy capture stop at the
backticks inside the string literal, so parsing fails. -/
theorem fence_strip_counterexample :
    Json.parse "\x7b\"a\":\"```\"\x7d" = some (.obj [("a", .str "```")]) ∧
    parseModelOutput "\x7b\"a\":\"```\"\x7d" = some (.obj [("a", .str "```")]) ∧
    parseModelOutput ("```json\n" ++ "\x7b\"a\":\"```\"\x7d" ++ "\n```") = none ∧
    parseModelOutput ("```json\n" ++ "\x7b\"a\":\"```\"\x7d" ++ "\n```") ≠
      parseModelOutput "\x7b\"a\":\"```\"\x7d" := by
  refine ⟨rfl, rfl, rfl, ?_⟩
  intro h
  rw [show parseModelOutput ("```json\n" ++ "\x7b\"a\":\"```\"\x7d" ++ "\n```") = none from rfl,
    show parseModelOutput "\x7b\"a\":\"```\"\x7d" = some (.obj [("a", .str "```")]) from rfl] at h
  exact Option.noConfusion h

end GranolaMonday
